import Mathlib

/-!
Shallow embedding of the core of the lol-finder player scout
(rank-LP codec, freshness cache, rate-limited request gate with 429
recovery, and the randomized exploration search engine `scoutPlayers`),
translated from the JavaScript source, together with theorems settling
the specification claims.

JavaScript numbers are modelled as `Int` (all values reaching the
modelled arithmetic are integral); win rates (the only genuinely
fractional quantities) are modelled as exact rationals `ℚ`.  The two
JS division-by-zero cases that matter (`0/0 = NaN`, with `NaN < x`
always false) are modelled by explicit zero-denominator branches.
`Date.now()` is passed in as an explicit `now : Int`; `Math.random`
is an injected entropy source `rng : Nat → Nat` consumed one draw at
a time; the polled global abort flag is an injected schedule
`abort : Nat → Bool` indexed by the poll occasion.
-/

namespace LolFinder

/-! ## Rank-LP codec (scout.js / part_000, lines 146-199) -/

def TIERS : List String :=
  ["IRON", "BRONZE", "SILVER", "GOLD", "PLATINUM", "EMERALD", "DIAMOND"]

def DIVISIONS : List String := ["IV", "III", "II", "I"]

structure RankPoint where
  tier : String
  division : String
  lp : Int
deriving DecidableEq, Repr

/-- JS `toUpperCase()`, implemented by structural recursion over the
character list (so that it evaluates inside the kernel). -/
def jsToUpper (s : String) : String := ⟨s.data.map Char.toUpper⟩

/-- Embedding of `toTotalLP(tier, division, lp)`: `TIERS.indexOf` /
`DIVISIONS.indexOf` on the upper-cased names, `null` (here `none`) when a
name is unrecognized, else `tierIndex*400 + divIndex*100 + lp`. -/
def toTotalLP (tier division : String) (lp : Int) : Option Int :=
  match TIERS.findIdx? (fun t => t == jsToUpper tier) with
  | none => none
  | some tierIndex =>
    match DIVISIONS.findIdx? (fun d => d == jsToUpper division) with
    | none => none
    | some divIndex => some ((tierIndex : Int) * 400 + (divIndex : Int) * 100 + lp)

/-- Embedding of `fromTotalLP(totalLP)`.  For `0 ≤ totalLP < 2800` the value
is a natural number, so JS `Math.floor(totalLP/400)` and `% 400` coincide
with natural division and remainder on `totalLP.toNat`. -/
def fromTotalLP (totalLP : Int) : RankPoint :=
  if totalLP < 0 then ⟨"IRON", "IV", 0⟩
  else if totalLP ≥ (TIERS.length : Int) * 400 then
    ⟨"MASTER", "I", totalLP - (TIERS.length : Int) * 400⟩
  else
    let t := totalLP.toNat
    let tierIndex := t / 400
    let remainder := t % 400
    let divIndex := remainder / 100
    let lp := remainder % 100
    ⟨TIERS.getD tierIndex "", DIVISIONS.getD divIndex "", (lp : Int)⟩

/-- Embedding of `getTierDivisionsInRange(minLP, maxLP)`: iterate the
tier-major, division-major cross product of indices, keeping the pairs whose
100-point band `[start, start+99]` intersects `[minLP, maxLP]`. -/
def getTierDivisionsInRange (minLP maxLP : Int) : List (String × String) :=
  ((List.range TIERS.length).flatMap
      (fun ti => (List.range DIVISIONS.length).map (fun di => (ti, di)))).filterMap
    (fun td =>
      let tierStart : Int := (td.1 : Int) * 400 + (td.2 : Int) * 100
      if tierStart + 99 ≥ minLP ∧ tierStart ≤ maxLP then
        some (TIERS.getD td.1 "", DIVISIONS.getD td.2 "")
      else none)

/-- Embedding of the `lpRange.match(/^(\d+)-(\d+)$/)` parse in
`scoutPlayers`: the string must be digits, one `-`, digits; the two capture
groups go through `parseInt`.  String splitting is done by structural
recursion over the character list. -/
def splitDash : List Char → List (List Char)
  | [] => [[]]
  | c :: cs =>
    let r := splitDash cs
    if c = '-' then [] :: r
    else
      match r with
      | h :: t => (c :: h) :: t
      | [] => [[c]]

def digitsToNat (l : List Char) : Nat :=
  l.foldl (fun n c => n * 10 + (c.toNat - 48)) 0

def isDigitRun (l : List Char) : Bool :=
  !l.isEmpty && l.all Char.isDigit

def parseLpRange (s : String) : Option (Int × Int) :=
  match splitDash s.data with
  | [a, b] =>
    if isDigitRun a && isDigitRun b then
      some ((digitsToNat a : Int), (digitsToNat b : Int))
    else none
  | _ => none

/-! ## Freshness cache (scout.js / part_000, lines 21-103) -/

/-- The fields of a discovered-player object that the modelled logic reads
(display-only fields such as `rank`/`queue` strings are omitted). -/
structure Player where
  name : String
  puuid : String
  totalLP : Option Int
  wins : Nat
  losses : Nat
  lastActiveMinutes : Int
  fromCache : Bool
deriving DecidableEq, Repr

/-- A cache entry: the stored player object plus the `cachedAt` stamp that
`cachePlayer` adds. -/
structure CachedRecord where
  p : Player
  cachedAt : Int
deriving DecidableEq, Repr

/-- The JS object `playerCache` is modelled as an association list with
(invariantly) distinct keys. -/
abbrev Cache := List (String × CachedRecord)

def CACHE_MAX_AGE : Int := 60 * 60 * 1000

/-- Upsert `playerCache[k] = v`: replace in place if the key exists,
otherwise append. -/
def cacheUpsert (c : Cache) (k : String) (v : CachedRecord) : Cache :=
  if c.any (fun kv => kv.1 = k) then
    c.map (fun kv => if kv.1 = k then (k, v) else kv)
  else c ++ [(k, v)]

/-- Embedding of `getCachedPlayer(puuid)`: absent if missing or older than
one hour. -/
def getCachedPlayer (c : Cache) (now : Int) (k : String) : Option CachedRecord :=
  match c.find? (fun kv => kv.1 = k) with
  | none => none
  | some kv => if now - kv.2.cachedAt > CACHE_MAX_AGE then none else some kv.2

structure CacheOptions where
  activeWithinMinutes : Int
  minWinRate : ℚ
  minLP : Option Int
  maxLP : Option Int
deriving DecidableEq, Repr

/-- The win-rate test `cached.wins / (cached.wins + cached.losses) < minWinRate`
of `cachedPlayerMeetsCriteria`.  When `wins + losses = 0` the JS quotient is
`0/0 = NaN` and `NaN < minWinRate` is false, so the rejection condition is
false; otherwise the quotient is an exact rational. -/
def cacheWinRateRejects (wins losses : Nat) (minWinRate : ℚ) : Bool :=
  if wins + losses = 0 then false
  else decide ((wins : ℚ) / ((wins : ℚ) + (losses : ℚ)) < minWinRate)

/-- The LP-range test of `cachedPlayerMeetsCriteria`: active only when both
bounds are non-null; a `null` stored `totalLP` coerces to `0` in the JS
`<`/`>` comparisons. -/
def cacheLpRejects (totalLP : Option Int) (minLP maxLP : Option Int) : Bool :=
  match minLP, maxLP with
  | some lo, some hi => decide (totalLP.getD 0 < lo ∨ totalLP.getD 0 > hi)
  | _, _ => false

/-- Embedding of `cachedPlayerMeetsCriteria(cached, options)`:
`adjustedActiveMinutes = lastActiveMinutes + Math.floor((now - cachedAt)/60000)`
(JS `Math.floor` on a possibly negative quotient is `Int.fdiv`), then the
activity, win-rate and LP checks in source order. -/
def cachedPlayerMeetsCriteria (now : Int) (c : CachedRecord) (o : CacheOptions) : Bool :=
  let cachedAge := now - c.cachedAt
  let adjusted := c.p.lastActiveMinutes + cachedAge.fdiv 60000
  if adjusted > o.activeWithinMinutes then false
  else if cacheWinRateRejects c.p.wins c.p.losses o.minWinRate then false
  else if cacheLpRejects c.p.totalLP o.minLP o.maxLP then false
  else true

/-- Embedding of `cachePlayer(player)`: upsert by `player.puuid` with a fresh
capture stamp, then trigger a save when the number of cached keys is a
multiple of 10.  Returns the updated cache and whether a save was
triggered. -/
def cachePlayer (c : Cache) (p : Player) (now : Int) : Cache × Bool :=
  let c' := cacheUpsert c p.puuid ⟨p, now⟩
  (c', c'.length % 10 == 0)

/-- The search engine's own win-rate computation for a ladder entry:
`totalGames > 0 ? wins / totalGames : 0`. -/
def entryWinRate (wins losses : Nat) : ℚ :=
  if 0 < wins + losses then (wins : ℚ) / ((wins : ℚ) + (losses : ℚ)) else 0

/-! ## Rate-limited request gate (part_000, lines 204-267) -/

/-- Observable events of a run: HTTP calls, rate-limit observer
notifications, cool-down sleep increments, abort-flag polls, cache saves and
player-found notifications. -/
inductive SEvent where
  | httpCall
  | rateLimitNotify (limited : Bool) (seconds : Nat)
  | sleepMs (ms : Nat)
  | abortPoll
  | cacheSave
  | playerFound (puuid : String)
deriving DecidableEq, Repr

/-- One upstream HTTP response: `ok`, `status`, and the parsed body (only
read when `ok`). -/
structure HttpResp (α : Type) where
  ok : Bool
  status : Nat
  payload : α
deriving DecidableEq, Repr

inductive ApiOutcome (α : Type) where
  | ok (payload : α)
  | authError
  | apiError (status : Nat)
  | aborted
  | noFuel
deriving DecidableEq, Repr

/-- The 429 cool-down loop of `apiRequest`: `waitTime = 120000`,
`checkInterval = 1000`, so `n = 120` iterations, each polling the abort flag
and then sleeping 1000 ms.  `k` is the global poll counter.  Returns
(aborted?, new poll counter, events). -/
def coolDownLoop (abort : Nat → Bool) : Nat → Nat → Bool × Nat × List SEvent
  | 0, k => (false, k, [])
  | n + 1, k =>
    if abort k then (true, k + 1, [SEvent.abortPoll])
    else
      let r := coolDownLoop abort n (k + 1)
      (r.1, r.2.1, SEvent.abortPoll :: SEvent.sleepMs 1000 :: r.2.2)

/-- Embedding of `apiRequest(url)` for a fixed url: `upstream n` is the
response to the `n`-th issue of the request.  On 429 it notifies the
rate-limit observer with `(true, 120)`, runs the cool-down loop (throwing
`Search aborted` if the abort flag is seen), notifies `(false, 0)` and
re-issues the request (the recursion is fuelled; the source recursion is
unbounded). -/
def apiRequest (upstream : Nat → HttpResp α) (abort : Nat → Bool) :
    Nat → Nat → Nat → ApiOutcome α × Nat × List SEvent
  | 0, _, k => (.noFuel, k, [])
  | fuel + 1, attempt, k =>
    let r := upstream attempt
    if r.ok then (.ok r.payload, k, [.httpCall])
    else if r.status = 403 then (.authError, k, [.httpCall])
    else if r.status = 429 then
      let w := coolDownLoop abort 120 k
      if w.1 then (.aborted, w.2.1, .httpCall :: .rateLimitNotify true 120 :: w.2.2)
      else
        let rec' := apiRequest upstream abort fuel (attempt + 1) w.2.1
        (rec'.1, rec'.2.1,
          .httpCall :: .rateLimitNotify true 120 ::
            (w.2.2 ++ (.rateLimitNotify false 0 :: rec'.2.2)))
    else (.apiError r.status, k, [.httpCall])

/-- The event trace of an uninterrupted full cool-down: 120 iterations of
poll-then-sleep-1000ms. -/
def fullCoolDownEvents : List SEvent :=
  (List.replicate 120 [SEvent.abortPoll, SEvent.sleepMs 1000]).flatten

/-- Total milliseconds slept in a trace. -/
def sleptMs (evs : List SEvent) : Nat :=
  (evs.map (fun e => match e with | .sleepMs n => n | _ => 0)).sum

/-! ## Exploration search engine (part_000, lines 402-785)

The engine is embedded as an executable interpreter.  Upstream lookups that
the source wraps in its own try/catch (activity, display name, summoner,
ranked standings) are modelled as `Option`-valued environment functions — a
caught exception and a "no data" result lead to the same program point.  The
page-listing fetch `getLeagueEntries` is NOT caught anywhere inside
`scoutPlayers`, so it goes through the full `apiRequest` model and its
failures (including `Search aborted` thrown during a 429 cool-down)
propagate out of the engine. -/

/-- One ladder entry from `getLeagueEntries` (fields the engine reads). -/
structure LeagueEntry where
  puuid : Option String
  leaguePoints : Int
  wins : Nat
  losses : Nat
deriving DecidableEq, Repr

/-- One ranked standing from `getLeagueEntriesBySummonerId` (fields the
teammate-expansion loop reads; `rank` is the division name). -/
structure RankedEntry where
  queueType : String
  tier : String
  rank : String
  leaguePoints : Int
  wins : Nat
  losses : Nat
deriving DecidableEq, Repr

/-- Result of `getLastActiveMinutes`: minutes since the last game plus the
triggering match's id and participant puuids (a participant with no puuid is
`none`). -/
structure Activity where
  minutesAgo : Int
  matchId : Option String
  participants : List (Option String)
deriving DecidableEq, Repr

/-- The upstream API as seen by the engine.  `pageHttp q t d p` gives the
attempt-indexed HTTP responses of the `getLeagueEntries` request for that
page; the remaining endpoints are try/catch-wrapped in the source and are
modelled by their caught outcomes (`none` = threw or no data). -/
structure Env where
  pageHttp : String → String → String → Nat → Nat → HttpResp (List LeagueEntry)
  lastActive : String → Option Activity
  riotId : String → Option String
  summoner : String → Option String
  standings : String → Option (List RankedEntry)

/-- The per-search constants: environment, injected randomness and abort
schedule, the clock, and the search options after parsing. -/
structure Ctx where
  env : Env
  rng : Nat → Nat
  abort : Nat → Bool
  now : Int
  maxPlayers : Nat
  activeWithinMinutes : Int
  minWinRate : ℚ
  minLP : Option Int
  maxLP : Option Int

def Ctx.cacheOpts (ctx : Ctx) : CacheOptions :=
  ⟨ctx.activeWithinMinutes, ctx.minWinRate, ctx.minLP, ctx.maxLP⟩

/-- One `(queue, tier, division)` search combination. -/
structure Combo where
  queue : String
  tier : String
  division : String
  triedPages : List Nat
  maxPageReached : Bool
  currentMaxPage : Nat
deriving DecidableEq, Repr

instance : Inhabited Combo := ⟨⟨"", "", "", [], true, 0⟩⟩

/-- Mutable state of one `scoutPlayers` run. -/
structure SState where
  combos : List Combo
  results : List Player
  seen : List String
  processed : List String
  cache : Cache
  events : List SEvent
  polls : Nat
  rands : Nat

/-- Poll `global.isSearchAborted()` once. -/
def pollAbort (ctx : Ctx) (s : SState) : Bool × SState :=
  (ctx.abort s.polls,
    { s with polls := s.polls + 1, events := s.events ++ [SEvent.abortPoll] })

/-- Consume one `Math.random()` draw to pick an index below `n`. -/
def draw (ctx : Ctx) (s : SState) (n : Nat) : Nat × SState :=
  (ctx.rng s.rands % n, { s with rands := s.rands + 1 })

/-- Swap two list positions (out-of-range indices leave the list
unchanged; the shuffle below only uses in-range indices). -/
def listSwap (l : List α) (i j : Nat) : List α :=
  match l[i]?, l[j]? with
  | some x, some y => (l.set i y).set j x
  | _, _ => l

/-- The Fisher-Yates loop of `shuffleArray`: `i` runs from `length-1` down
to `1`, swapping position `i` with a random position `j ≤ i`.  `k` is the
random-draw counter. -/
def shuffleGo (rng : Nat → Nat) : Nat → Nat → List α → List α × Nat
  | 0, k, l => (l, k)
  | i + 1, k, l => shuffleGo rng i (k + 1) (listSwap l (i + 1) (rng k % (i + 2)))

def shuffleArray (rng : Nat → Nat) (k : Nat) (l : List α) : List α × Nat :=
  shuffleGo rng (l.length - 1) k l

/-- Push an accepted player: add `pu` to `seenPuuids`, update the cache if
asked (the fresh paths call `cachePlayer`, the cache-hit paths do not),
append to `results` and notify the player-found observer. -/
def acceptPlayer (ctx : Ctx) (s : SState) (pu : String) (pl : Player)
    (updateCache : Bool) : SState :=
  let s := { s with seen := pu :: s.seen }
  let s :=
    if updateCache then
      let cp := cachePlayer s.cache pl ctx.now
      { s with cache := cp.1,
               events := s.events ++ if cp.2 then [SEvent.cacheSave] else [] }
    else s
  { s with results := s.results ++ [pl],
           events := s.events ++ [SEvent.playerFound pl.puuid] }

/-- The cache-hit acceptance: the stored object is re-emitted with
`lastActiveMinutes` adjusted for elapsed time and `fromCache = true`. -/
def cachedHitPlayer (ctx : Ctx) (rec : CachedRecord) : Player :=
  { rec.p with
    lastActiveMinutes := rec.p.lastActiveMinutes + (ctx.now - rec.cachedAt).fdiv 60000,
    fromCache := true }

/-- The JS test `cached && cachedPlayerMeetsCriteria(cached, cacheOptions)`:
the fresh (non-cached) path runs whenever this is `none`. -/
def cacheLookup (ctx : Ctx) (c : Cache) (pu : String) : Option CachedRecord :=
  match getCachedPlayer c ctx.now pu with
  | some rec =>
    if cachedPlayerMeetsCriteria ctx.now rec ctx.cacheOpts then some rec else none
  | none => none

/-- The teammate-expansion inner loop over one participant's ranked
standings (part_000 lines 694-763): skip non-Solo/Flex queues, apply the
LP-range and win-rate filters, and accept at most the first qualifying
entry (the source `break`s after one acceptance). -/
def processStandings (ctx : Ctx) (pp : String) (baseActive : Int) :
    List RankedEntry → SState → SState
  | [], s => s
  | le :: rest, s =>
    if s.results.length ≥ ctx.maxPlayers then s
    else if ¬(le.queueType = "RANKED_SOLO_5x5" ∨ le.queueType = "RANKED_FLEX_SR") then
      processStandings ctx pp baseActive rest s
    else
      let ptlp := toTotalLP le.tier le.rank le.leaguePoints
      let skipLP : Bool :=
        match ctx.minLP, ctx.maxLP with
        | some lo, some hi =>
          ptlp.isNone || decide (ptlp.getD 0 < lo) || decide (ptlp.getD 0 > hi)
        | _, _ => false
      if skipLP then processStandings ctx pp baseActive rest s
      else if entryWinRate le.wins le.losses < ctx.minWinRate then
        processStandings ctx pp baseActive rest s
      else
        let name := (ctx.env.riotId pp).getD "Unknown"
        let pl : Player :=
          { name := name, puuid := pp, totalLP := ptlp, wins := le.wins,
            losses := le.losses, lastActiveMinutes := baseActive, fromCache := false }
        acceptPlayer ctx s pp pl true

/-- The teammate-expansion loop over the participants of the accepted
player's triggering match (part_000 lines 641-768). -/
def processParticipants (ctx : Ctx) (foundPuuid : String) (baseActive : Int) :
    List (Option String) → SState → SState
  | [], s => s
  | part :: rest, s =>
    if s.results.length ≥ ctx.maxPlayers then s
    else
      let (ab, s) := pollAbort ctx s
      if ab then s
      else
        match part with
        | none => processParticipants ctx foundPuuid baseActive rest s
        | some pp =>
          if pp = foundPuuid ∨ pp ∈ s.seen then
            processParticipants ctx foundPuuid baseActive rest s
          else
            match cacheLookup ctx s.cache pp with
            | some rec =>
              let s := acceptPlayer ctx s pp (cachedHitPlayer ctx rec) false
              processParticipants ctx foundPuuid baseActive rest s
            | none =>
              match ctx.env.summoner pp with
              | none => processParticipants ctx foundPuuid baseActive rest s
              | some sid =>
                match ctx.env.standings sid with
                | none => processParticipants ctx foundPuuid baseActive rest s
                | some [] => processParticipants ctx foundPuuid baseActive rest s
                | some les =>
                  let s := processStandings ctx pp baseActive les s
                  processParticipants ctx foundPuuid baseActive rest s

/-- The per-entry loop over one (shuffled) ladder page (part_000 lines
522-773): LP-range filter, win-rate filter, missing-puuid skip, seen skip,
cache-hit accept, else fresh activity lookup, accept if within the activity
window, then teammate expansion of the triggering match. -/
def processEntries (ctx : Ctx) (searchTier searchDiv : String) :
    List LeagueEntry → SState → SState
  | [], s => s
  | e :: rest, s =>
    if s.results.length ≥ ctx.maxPlayers then s
    else
      let (ab, s) := pollAbort ctx s
      if ab then s
      else
        let skipLP : Bool :=
          match ctx.minLP, ctx.maxLP with
          | some lo, some hi =>
            let ptl := (toTotalLP searchTier searchDiv e.leaguePoints).getD 0
            decide (ptl < lo) || decide (ptl > hi)
          | _, _ => false
        if skipLP then processEntries ctx searchTier searchDiv rest s
        else if entryWinRate e.wins e.losses < ctx.minWinRate then
          processEntries ctx searchTier searchDiv rest s
        else
          match e.puuid with
          | none => processEntries ctx searchTier searchDiv rest s
          | some pu =>
            if pu ∈ s.seen then processEntries ctx searchTier searchDiv rest s
            else
              match cacheLookup ctx s.cache pu with
              | some rec =>
                let s := acceptPlayer ctx s pu (cachedHitPlayer ctx rec) false
                processEntries ctx searchTier searchDiv rest s
              | none =>
                match ctx.env.lastActive pu with
                | none => processEntries ctx searchTier searchDiv rest s
                | some act =>
                  if act.minutesAgo ≤ ctx.activeWithinMinutes then
                    let name := (ctx.env.riotId pu).getD "Unknown"
                    let pl : Player :=
                      { name := name, puuid := pu,
                        totalLP := toTotalLP searchTier searchDiv e.leaguePoints,
                        wins := e.wins, losses := e.losses,
                        lastActiveMinutes := act.minutesAgo, fromCache := false }
                    let s := acceptPlayer ctx s pu pl true
                    let s :=
                      match act.matchId with
                      | some mid =>
                        if mid ∉ s.processed ∧ s.results.length < ctx.maxPlayers then
                          let s := { s with processed := mid :: s.processed }
                          processParticipants ctx pu act.minutesAgo act.participants s
                        else s
                      | none => s
                    processEntries ctx searchTier searchDiv rest s
                  else processEntries ctx searchTier searchDiv rest s

/-- Exit status of the main `while` loop. -/
inductive LoopExit where
  | done
  | err (msg : String)
  | outOfFuel
deriving DecidableEq, Repr

/-- The untried pages of a combination: `[1, currentMaxPage]` minus
`triedPages`. -/
def untriedPages (c : Combo) : List Nat :=
  (List.range' 1 c.currentMaxPage).filter (fun p => decide (p ∉ c.triedPages))

def setCombo (s : SState) (i : Nat) (c : Combo) : SState :=
  { s with combos := s.combos.set i c }

/-- The indices of `activeCombinations` (the not-yet-exhausted
combinations), as positions into `s.combos`. -/
def activeIdxsOf (s : SState) : List Nat :=
  (List.range s.combos.length).filter
    (fun i => match s.combos[i]? with
      | some c => !c.maxPageReached
      | none => false)

/-- The continuation of one loop iteration after the page fetch: a thrown
error or fuel exhaustion ends the loop (`Sum.inl`), an empty page tightens
`currentMaxPage` (marking the combination exhausted when nothing remains),
and a non-empty page is shuffled and processed entry by entry. -/
def handleFetch (ctx : Ctx) (idx : Nat) (combo : Combo) (page : Nat)
    (out : ApiOutcome (List LeagueEntry)) (s : SState) : (LoopExit × SState) ⊕ SState :=
  match out with
  | .noFuel => .inl (.outOfFuel, s)
  | .authError => .inl (.err "API Key invalid or expired", s)
  | .aborted => .inl (.err "Search aborted", s)
  | .apiError st => .inl (.err ("API Error " ++ toString st), s)
  | .ok entries =>
    if entries.isEmpty then
      let newMax := min combo.currentMaxPage (page - 1)
      let exhausted := newMax < 1 ∨ combo.triedPages.length ≥ newMax
      .inr (setCombo s idx { combo with currentMaxPage := newMax, maxPageReached := exhausted })
    else
      let sh := shuffleArray ctx.rng s.rands entries
      let s := { s with rands := sh.2 }
      .inr (processEntries ctx combo.tier combo.division sh.1 s)

/-- One iteration of the main `while (results.length < maxPlayers)` loop of
`scoutPlayers` (part_000 lines 471-774): check quota, poll abort, filter to
active combinations (stop on exhaustion), pick a random combination and a
random untried page (marking the combination exhausted if none remains),
fetch the page through the rate-limited gate and continue via
`handleFetch`.  `Sum.inl` ends the loop, `Sum.inr` continues with the new
state. -/
def scoutStep (ctx : Ctx) (fuelLeft : Nat) (s : SState) : (LoopExit × SState) ⊕ SState :=
  if s.results.length ≥ ctx.maxPlayers then .inl (.done, s)
  else
    let (ab, s) := pollAbort ctx s
    if ab then .inl (.done, s)
    else
      let activeIdxs := activeIdxsOf s
      if activeIdxs.length = 0 then .inl (.done, s)
      else
        let (d1, s) := draw ctx s activeIdxs.length
        let idx := activeIdxs.getD d1 0
        let combo := s.combos.getD idx default
        let untried := untriedPages combo
        if untried.length = 0 then
          .inr (setCombo s idx { combo with maxPageReached := true })
        else
          let (d2, s) := draw ctx s untried.length
          let page := untried.getD d2 1
          let combo := { combo with triedPages := page :: combo.triedPages }
          let s := setCombo s idx combo
          let r := apiRequest (ctx.env.pageHttp combo.queue combo.tier combo.division page)
            ctx.abort fuelLeft 0 s.polls
          let s := { s with polls := r.2.1, events := s.events ++ r.2.2 }
          handleFetch ctx idx combo page r.1 s

/-- The fuelled main loop: iterate `scoutStep` until it exits. -/
def scoutLoop (ctx : Ctx) : Nat → SState → LoopExit × SState
  | 0, s => (.outOfFuel, s)
  | fuel + 1, s =>
    match scoutStep ctx (fuel + 1) s with
    | .inl r => r
    | .inr s' => scoutLoop ctx fuel s'

/-- The state carried onward by a step, whichever way it went. -/
def stepState : (LoopExit × SState) ⊕ SState → SState
  | .inl r => r.2
  | .inr s => s

/-- Overall result of `scoutPlayers` for the caller: the resolved promise
(result list), a rejected promise (thrown error), or fuel exhaustion of the
interpreter. -/
inductive ScoutResult where
  | ok (results : List Player)
  | err (msg : String)
  | outOfFuel
deriving DecidableEq, Repr

def ScoutResult.isErr : ScoutResult → Bool
  | .err _ => true
  | _ => false

/-- The search options record (the destructuring defaults of
`scoutPlayers`). -/
structure ScoutOptions where
  queue : Option String := none
  tier : String := "GOLD"
  division : String := "II"
  lpRange : Option String := none
  maxPlayers : Nat := 10
  activeWithinMinutes : Int := 30
  minWinRate : ℚ := 0
deriving Repr

/-- Which queues are searched: the requested one, or both ranked queues. -/
def scoutQueues (opts : ScoutOptions) : List String :=
  match opts.queue with
  | some q => [q]
  | none => ["RANKED_SOLO_5x5", "RANKED_FLEX_SR"]

/-- The configuration phase of `scoutPlayers`: `none` when the provided
`lpRange` fails the `^(\d+)-(\d+)$` parse (the source then logs and returns
`[]`), otherwise the tier/division list and LP bounds to search. -/
def scoutPlan (opts : ScoutOptions) :
    Option (List (String × String) × Option Int × Option Int) :=
  match opts.lpRange with
  | some str =>
    match parseLpRange str with
    | none => none
    | some (lo, hi) => some (getTierDivisionsInRange lo hi, some lo, some hi)
  | none => some ([(jsToUpper opts.tier, jsToUpper opts.division)], none, none)

/-- The cross product of queues × tier/divisions, each combination starting
with an empty tried-page set and an assumed 50-page ceiling. -/
def buildCombos (queues : List String) (tds : List (String × String)) : List Combo :=
  queues.flatMap (fun q =>
    tds.map (fun td =>
      { queue := q, tier := td.1, division := td.2,
        triedPages := [], maxPageReached := false, currentMaxPage := 50 }))

/-- The epilogue of `scoutPlayers`: on normal loop exit, `saveCache()` runs
unconditionally and the accumulated results are returned; a thrown error
propagates without the final save. -/
def scoutFinish (r : LoopExit × SState) : ScoutResult × List SEvent :=
  match r.1 with
  | .done => (.ok r.2.results, r.2.events ++ [SEvent.cacheSave])
  | .err m => (.err m, r.2.events)
  | .outOfFuel => (.outOfFuel, r.2.events)

/-- Embedding of `scoutPlayers(options)`: parse the configuration (an
unparseable `lpRange` returns `[]` immediately, with no save and no
requests), build and shuffle the combinations, run the main loop, and on
normal exit save the cache and return the accumulated results.  A thrown
error (403, unexpected status, or `Search aborted` during a page fetch's
429 cool-down) propagates without the final save. -/
def scoutPlayers (env : Env) (rng : Nat → Nat) (abort : Nat → Bool) (now : Int)
    (initCache : Cache) (opts : ScoutOptions) (fuel : Nat) :
    ScoutResult × List SEvent :=
  match scoutPlan opts with
  | none => (.ok [], [])
  | some (tds, lo, hi) =>
    let ctx : Ctx :=
      { env := env, rng := rng, abort := abort, now := now,
        maxPlayers := opts.maxPlayers,
        activeWithinMinutes := opts.activeWithinMinutes,
        minWinRate := opts.minWinRate, minLP := lo, maxLP := hi }
    let sh := shuffleArray rng 0 (buildCombos (scoutQueues opts) tds)
    let s0 : SState :=
      { combos := sh.1, results := [], seen := [], processed := [],
        cache := initCache, events := [], polls := 0, rands := sh.2 }
    scoutFinish (scoutLoop ctx fuel s0)

/-! ## Claim C5: LP round-trip -/

theorem lp_roundtrip_idx : ∀ ti : Nat, ti < 7 → ∀ di : Nat, di < 4 → ∀ n : Nat, n < 100 →
    (toTotalLP (TIERS.getD ti "") (DIVISIONS.getD di "") (n : Int)).map fromTotalLP =
      some ⟨TIERS.getD ti "", DIVISIONS.getD di "", (n : Int)⟩ := by decide

/-- C5: for every valid tier name among the seven non-apex tiers, every
valid division name, and every points value in [0, 99],
`fromTotalLP (toTotalLP tier division points)` returns exactly the same
(tier, division, points) triple. -/
theorem c5_lp_roundtrip (t d : String) (p : Int) (ht : t ∈ TIERS) (hd : d ∈ DIVISIONS)
    (hp0 : 0 ≤ p) (hp99 : p ≤ 99) :
    (toTotalLP t d p).map fromTotalLP = some ⟨t, d, p⟩ := by
  obtain ⟨ti, hti, rfl⟩ := List.mem_iff_getElem.mp ht
  obtain ⟨di, hdi, rfl⟩ := List.mem_iff_getElem.mp hd
  have h7 : ti < 7 := by simpa [TIERS] using hti
  have h4 : di < 4 := by simpa [DIVISIONS] using hdi
  have h100 : p.toNat < 100 := by omega
  have hcast : ((p.toNat : Nat) : Int) = p := Int.toNat_of_nonneg hp0
  have h := lp_roundtrip_idx ti h7 di h4 p.toNat h100
  rw [List.getD_eq_getElem TIERS "" hti, List.getD_eq_getElem DIVISIONS "" hdi, hcast] at h
  exact h

theorem c5_witness :
    "SILVER" ∈ TIERS ∧ "IV" ∈ DIVISIONS ∧ (0 : Int) ≤ 50 ∧ (50 : Int) ≤ 99 ∧
    (toTotalLP "SILVER" "IV" 50).map fromTotalLP = some ⟨"SILVER", "IV", 50⟩ :=
  ⟨by decide, by decide, by decide, by decide,
    c5_lp_roundtrip "SILVER" "IV" 50 (by decide) (by decide) (by decide) (by decide)⟩

/-! ## Claim C6: fromTotalLP case analysis -/

/-- The spec's view of a rank point, where apex results carry no
division. -/
structure SpecRankPoint where
  tier : String
  division : Option String
  points : Int
deriving DecidableEq, Repr

/-- Modelled from the spec (§4.1 `fromTotalPoints`), for comparison with the
source's `fromTotalLP` on claim C6: for `total < 0` clamp to lowest
tier/division/0; for `total ≥ 2800` the apex tier with
`points = total - 2800` and NO division; otherwise decompose by 400 and
100. -/
def fromTotalPointsSpec (t : Int) : SpecRankPoint :=
  if t < 0 then ⟨"IRON", some "IV", 0⟩
  else if t ≥ 2800 then ⟨"MASTER", none, t - 2800⟩
  else ⟨TIERS.getD (t.toNat / 400) "", some (DIVISIONS.getD (t.toNat % 400 / 100) ""),
    ((t.toNat % 400 % 100 : Nat) : Int)⟩

/-- C6 counterexample: at `total = 2800` the code returns division `"I"` — a
genuine division value — where the claim says the apex result has no
division. -/
theorem c6_counterexample :
    fromTotalLP 2800 = ⟨"MASTER", "I", 0⟩ ∧
    (fromTotalLP 2800).division ∈ DIVISIONS ∧
    (fromTotalPointsSpec 2800).division = none := by decide

/-- C6 amended: `fromTotalLP` clamps negative totals to IRON IV 0; for
`total ≥ 2800` it returns the apex tier `"MASTER"` with
`points = total - 2800` and the placeholder division `"I"` (a division IS
present); otherwise it decomposes by integer division by 400 (tier), the
remainder by 100 (division), and the final remainder (points). -/
theorem c6_fromTotalLP_cases (t : Int) :
    (t < 0 → fromTotalLP t = ⟨"IRON", "IV", 0⟩) ∧
    (2800 ≤ t → fromTotalLP t = ⟨"MASTER", "I", t - 2800⟩) ∧
    (0 ≤ t → t < 2800 →
      fromTotalLP t = ⟨TIERS.getD (t.toNat / 400) "", DIVISIONS.getD (t.toNat % 400 / 100) "",
        ((t.toNat % 400 % 100 : Nat) : Int)⟩) := by
  refine ⟨fun h => ?_, fun h => ?_, fun h0 h1 => ?_⟩
  · simp [fromTotalLP, h]
  · have h2 : ¬ t < 0 := by omega
    have h3 : t ≥ (TIERS.length : Int) * 400 := by simp [TIERS]; omega
    simp only [fromTotalLP, if_neg h2, if_pos h3, RankPoint.mk.injEq]
    refine ⟨by trivial, by trivial, ?_⟩
    simp [TIERS]
  · have h2 : ¬ t < 0 := by omega
    have h3 : ¬ t ≥ (TIERS.length : Int) * 400 := by simp [TIERS]; omega
    simp only [fromTotalLP, if_neg h2, if_neg h3]

theorem c6_witness :
    ((-3 : Int) < 0 ∧ fromTotalLP (-3) = ⟨"IRON", "IV", 0⟩) ∧
    ((2800 : Int) ≤ 2805 ∧ fromTotalLP 2805 = ⟨"MASTER", "I", 2805 - 2800⟩) ∧
    ((0 : Int) ≤ 850 ∧ (850 : Int) < 2800 ∧
      fromTotalLP 850 = ⟨TIERS.getD ((850 : Int).toNat / 400) "",
        DIVISIONS.getD ((850 : Int).toNat % 400 / 100) "",
        (((850 : Int).toNat % 400 % 100 : Nat) : Int)⟩) :=
  ⟨⟨by decide, (c6_fromTotalLP_cases (-3)).1 (by decide)⟩,
   ⟨by decide, (c6_fromTotalLP_cases 2805).2.1 (by decide)⟩,
   ⟨by decide, by decide, (c6_fromTotalLP_cases 850).2.2 (by decide) (by decide)⟩⟩

/-! ## Claim C7: cache activity recomputation -/

/-- C7: `cachedPlayerMeetsCriteria` recomputes adjusted active-minutes as
`lastActiveMinutes + floor((now - cachedAt)/60000)` and rejects whenever
that exceeds `activeWithinMinutes`; a record cached 59 minutes ago with
`lastActiveMinutes = 10` passes with `activeWithinMinutes = 70` and fails
with `60`, all other constraints being satisfied. -/
theorem c7_cached_activity (now : Int) (c : CachedRecord) (o : CacheOptions) :
    (c.p.lastActiveMinutes + (now - c.cachedAt).fdiv 60000 > o.activeWithinMinutes →
      cachedPlayerMeetsCriteria now c o = false) ∧
    (c.cachedAt = now - 59 * 60000 → c.p.lastActiveMinutes = 10 →
      cacheWinRateRejects c.p.wins c.p.losses o.minWinRate = false →
      cacheLpRejects c.p.totalLP o.minLP o.maxLP = false →
      cachedPlayerMeetsCriteria now c { o with activeWithinMinutes := 70 } = true ∧
      cachedPlayerMeetsCriteria now c { o with activeWithinMinutes := 60 } = false) := by
  constructor
  · intro h
    simp only [cachedPlayerMeetsCriteria]
    rw [if_pos h]
  · intro h1 h2 h3 h4
    have e : (now - c.cachedAt).fdiv 60000 = 59 := by
      have : now - c.cachedAt = 3540000 := by omega
      rw [this]; decide
    constructor
    · simp [cachedPlayerMeetsCriteria, e, h2, h3, h4]
    · simp only [cachedPlayerMeetsCriteria, e, h2]
      norm_num

theorem c7_witness :
    ((10 : Int) + ((59 * 60000 : Int) - 0).fdiv 60000 > 5 ∧
      cachedPlayerMeetsCriteria (59 * 60000)
        ⟨⟨"", "x", none, 1, 1, 10, false⟩, 0⟩ ⟨5, 1/2, none, none⟩ = false) ∧
    (cachedPlayerMeetsCriteria (59 * 60000)
        ⟨⟨"", "x", none, 1, 1, 10, false⟩, 0⟩ ⟨70, 1/2, none, none⟩ = true ∧
      cachedPlayerMeetsCriteria (59 * 60000)
        ⟨⟨"", "x", none, 1, 1, 10, false⟩, 0⟩ ⟨60, 1/2, none, none⟩ = false) := by
  have hwr : cacheWinRateRejects 1 1 (1 / 2 : ℚ) = false := by
    norm_num [cacheWinRateRejects]
  refine ⟨⟨by decide, ?_⟩, ?_⟩
  · exact (c7_cached_activity (59 * 60000) ⟨⟨"", "x", none, 1, 1, 10, false⟩, 0⟩
      ⟨5, 1/2, none, none⟩).1 (by decide)
  · exact (c7_cached_activity (59 * 60000) ⟨⟨"", "x", none, 1, 1, 10, false⟩, 0⟩
      ⟨70, 1/2, none, none⟩).2 (by decide) rfl hwr rfl

/-! ## Claim C10: zero-game records pass the cache win-rate check -/

/-- C10: a cached record with `wins = 0` and `losses = 0` is never rejected
by the cache's win-rate check (the JS quotient is `0/0 = NaN` and
`NaN < minWinRate` is false), so it is accepted whenever the activity and LP
checks pass — even for `minWinRate > 0`, for which the search engine's own
filter (`entryWinRate`, which treats zero games as win rate 0) WOULD
reject. -/
theorem c10_zero_games (now : Int) (c : CachedRecord) (o : CacheOptions)
    (hw : c.p.wins = 0) (hl : c.p.losses = 0)
    (hact : c.p.lastActiveMinutes + (now - c.cachedAt).fdiv 60000 ≤ o.activeWithinMinutes)
    (hlp : cacheLpRejects c.p.totalLP o.minLP o.maxLP = false)
    (hq : 0 < o.minWinRate) :
    cachedPlayerMeetsCriteria now c o = true ∧ entryWinRate 0 0 < o.minWinRate := by
  constructor
  · have h1 : ¬ (c.p.lastActiveMinutes + (now - c.cachedAt).fdiv 60000 > o.activeWithinMinutes) := by
      omega
    have h2 : cacheWinRateRejects c.p.wins c.p.losses o.minWinRate = false := by
      simp [cacheWinRateRejects, hw, hl]
    simp [cachedPlayerMeetsCriteria, h1, h2, hlp]
  · simpa [entryWinRate] using hq

theorem c10_witness :
    cachedPlayerMeetsCriteria 0 ⟨⟨"", "x", none, 0, 0, 0, false⟩, 0⟩
      ⟨30, 9/10, none, none⟩ = true ∧
    entryWinRate 0 0 < (9 / 10 : ℚ) :=
  c10_zero_games 0 ⟨⟨"", "x", none, 0, 0, 0, false⟩, 0⟩ ⟨30, 9/10, none, none⟩
    rfl rfl (by decide) rfl (by norm_num)

/-! ## Claim C1: 429 recovery protocol of the request gate -/

theorem coolDownLoop_noAbort (n k : Nat) :
    coolDownLoop (fun _ => false) n k =
      (false, k + n, (List.replicate n [SEvent.abortPoll, SEvent.sleepMs 1000]).flatten) := by
  induction n generalizing k with
  | zero => simp [coolDownLoop]
  | succ m ih =>
    have e : k + 1 + m = k + (m + 1) := by omega
    simp [coolDownLoop, ih, List.replicate_succ, e]

set_option maxRecDepth 4000 in
/-- C1: if the upstream returns 429 on the first issue and a success on the
second, `apiRequest` returns the success payload; in between it notifies the
rate-limit observer with `(true, 120)`, waits the full 120-second cool-down
in 120 increments of 1000 ms, polling the abort predicate before each
increment, notifies `(false, 0)`, and re-issues the identical request
exactly once (the trace holds exactly two HTTP calls and 120000 ms of
sleep). -/
theorem c1_api_429_recovery {α : Type} (upstream : Nat → HttpResp α) (p : α) (f k : Nat)
    (h0 : (upstream 0).ok = false) (h0s : (upstream 0).status = 429)
    (h1 : (upstream 1).ok = true) (h1p : (upstream 1).payload = p) :
    apiRequest upstream (fun _ => false) (f + 2) 0 k =
      (.ok p, k + 120,
        SEvent.httpCall :: SEvent.rateLimitNotify true 120 ::
          (fullCoolDownEvents ++ [SEvent.rateLimitNotify false 0, SEvent.httpCall])) ∧
    (SEvent.httpCall :: SEvent.rateLimitNotify true 120 ::
        (fullCoolDownEvents ++ [SEvent.rateLimitNotify false 0, SEvent.httpCall])).count
      SEvent.httpCall = 2 ∧
    sleptMs fullCoolDownEvents = 120000 := by
  refine ⟨?_, by decide, by decide⟩
  simp [apiRequest, h0, h0s, h1, h1p, coolDownLoop_noAbort, fullCoolDownEvents]

def c1Upstream : Nat → HttpResp Nat :=
  fun n => if n = 0 then ⟨false, 429, 0⟩ else ⟨true, 200, 7⟩

theorem c1_witness :
    (c1Upstream 0).ok = false ∧ (c1Upstream 0).status = 429 ∧
    (c1Upstream 1).ok = true ∧ (c1Upstream 1).payload = 7 ∧
    apiRequest c1Upstream (fun _ => false) 2 0 0 =
      (.ok 7, 0 + 120,
        SEvent.httpCall :: SEvent.rateLimitNotify true 120 ::
          (fullCoolDownEvents ++ [SEvent.rateLimitNotify false 0, SEvent.httpCall])) :=
  ⟨rfl, rfl, rfl, rfl,
    (c1_api_429_recovery c1Upstream 7 0 0 rfl rfl rfl rfl).1⟩

/-! ## Shared facts about the search epilogue -/

theorem scoutFinish_ok_iff (r : LoopExit × SState) (rs : List Player) (evs : List SEvent) :
    scoutFinish r = (.ok rs, evs) ↔
      r.1 = .done ∧ rs = r.2.results ∧ evs = r.2.events ++ [SEvent.cacheSave] := by
  rcases hr : r.1 with _ | m
  · simp only [scoutFinish, hr, Prod.mk.injEq, ScoutResult.ok.injEq]
    constructor
    · rintro ⟨h1, h2⟩; exact ⟨trivial, h1.symm, h2.symm⟩
    · rintro ⟨-, h1, h2⟩; exact ⟨h1.symm, h2.symm⟩
  · simp [scoutFinish, hr]
  · simp [scoutFinish, hr]

theorem scoutFinish_ok_last (r : LoopExit × SState) (rs : List Player) (evs : List SEvent)
    (h : scoutFinish r = (.ok rs, evs)) : evs.getLast? = some SEvent.cacheSave := by
  obtain ⟨-, -, he⟩ := (scoutFinish_ok_iff r rs evs).mp h
  subst he
  rw [List.getLast?_concat]

theorem scoutFinish_done (r : LoopExit × SState) (h : r.1 = .done) :
    scoutFinish r = (.ok r.2.results, r.2.events ++ [SEvent.cacheSave]) := by
  simp [scoutFinish, h]

/-- Reduction of `scoutPlayers` once the configuration parse is known. -/
theorem scoutPlayers_eq_some (env : Env) (rng : Nat → Nat) (abort : Nat → Bool) (now : Int)
    (cache : Cache) (opts : ScoutOptions) (fuel : Nat) (tds : List (String × String))
    (lo hi : Option Int) (hplan : scoutPlan opts = some (tds, lo, hi)) :
    scoutPlayers env rng abort now cache opts fuel =
      scoutFinish (scoutLoop
        { env := env, rng := rng, abort := abort, now := now,
          maxPlayers := opts.maxPlayers,
          activeWithinMinutes := opts.activeWithinMinutes,
          minWinRate := opts.minWinRate, minLP := lo, maxLP := hi } fuel
        { combos := (shuffleArray rng 0 (buildCombos (scoutQueues opts) tds)).1,
          results := [], seen := [], processed := [], cache := cache, events := [],
          polls := 0, rands := (shuffleArray rng 0 (buildCombos (scoutQueues opts) tds)).2 }) := by
  unfold scoutPlayers
  rw [hplan]

/-! ## Claim C9: cache save trigger -/

def c9TestPlayer : Player :=
  { name := "A", puuid := "X", totalLP := some 0, wins := 0, losses := 0,
    lastActiveMinutes := 0, fromCache := false }

/-- Iterate `cachePlayer` with the same player, collecting the save flag of
each upsert. -/
def cachePlayerFlags (p : Player) : Nat → Cache → List Bool
  | 0, _ => []
  | n + 1, c =>
    let r := cachePlayer c p 0
    r.2 :: cachePlayerFlags p n r.1

/-- C9 counterexample: upserting the SAME player ten times into an empty
cache triggers no save at all — in particular not on the 10th upsert — because
the trigger tests the cache size modulo 10 and overwrites leave the size at
1, contradicting "a durable save is triggered exactly on every Nth upsert
... independent of whether each upsert inserts a new key or overwrites". -/
theorem c9_counterexample : cachePlayerFlags c9TestPlayer 10 [] = List.replicate 10 false := by
  decide

/-- C9 amended: `cachePlayer` triggers a durable save exactly when, after
the upsert, the number of cached keys is a multiple of 10 (so the trigger
depends on whether the upsert inserted a new key or overwrote an existing
one); and every normally-completing search run ends with an unconditional
final save. -/
theorem c9_save_on_size :
    (∀ (c : Cache) (p : Player) (now : Int),
      ((cachePlayer c p now).2 = true ↔
        (if p.puuid ∈ c.map Prod.fst then c.length else c.length + 1) % 10 = 0)) ∧
    (∀ env rng abort now cache opts fuel rs evs,
      scoutPlan opts ≠ none →
      scoutPlayers env rng abort now cache opts fuel = (.ok rs, evs) →
      evs.getLast? = some SEvent.cacheSave) := by
  constructor
  · intro c p now
    have hlen : (cacheUpsert c p.puuid ⟨p, now⟩).length =
        if p.puuid ∈ c.map Prod.fst then c.length else c.length + 1 := by
      by_cases h : p.puuid ∈ c.map Prod.fst
      · have ha : c.any (fun kv => kv.1 = p.puuid) = true := by
          simp only [List.any_eq_true]
          obtain ⟨kv, hkv, he⟩ := List.mem_map.mp h
          exact ⟨kv, hkv, by simp [he]⟩
        simp [cacheUpsert, ha, h]
      · have ha : c.any (fun kv => kv.1 = p.puuid) = false := by
          simp only [List.any_eq_false]
          intro kv hkv
          simp only [decide_eq_true_eq]
          intro he
          exact h (List.mem_map.mpr ⟨kv, hkv, he⟩)
        simp [cacheUpsert, ha, h]
    simp [cachePlayer, hlen]
  · intro env rng abort now cache opts fuel rs evs hplan hrun
    rcases hp : scoutPlan opts with _ | ⟨tds, lo, hi⟩
    · exact absurd hp hplan
    · unfold scoutPlayers at hrun
      rw [hp] at hrun
      exact scoutFinish_ok_last _ _ _ hrun

/-- A trivial concrete environment for witness runs. -/
def trivEnv : Env :=
  { pageHttp := fun _ _ _ _ _ => ⟨true, 200, []⟩,
    lastActive := fun _ => none, riotId := fun _ => none,
    summoner := fun _ => none, standings := fun _ => none }

theorem c9_witness :
    ((cachePlayer [] c9TestPlayer 0).2 = true ↔
      (if c9TestPlayer.puuid ∈ (([] : Cache).map Prod.fst) then ([] : Cache).length
        else ([] : Cache).length + 1) % 10 = 0) ∧
    ([SEvent.cacheSave] : List SEvent).getLast? = some SEvent.cacheSave :=
  ⟨c9_save_on_size.1 [] c9TestPlayer 0,
    c9_save_on_size.2 trivEnv (fun _ => 0) (fun _ => false) 0 []
      { maxPlayers := 0 } 1 [] [SEvent.cacheSave] (by decide) (by decide)⟩

/-! ## Claim C8: unparseable LP range -/

def c8Opts : ScoutOptions := { lpRange := some "abc" }

/-- C8 counterexample: with the unparseable LP range `"abc"`, `scoutPlayers`
resolves NORMALLY with an empty result list and an empty trace — no fatal
configuration error of any kind reaches the caller, contradicting
"surfaces an immediate fatal configuration error to the caller". -/
theorem c8_counterexample :
    scoutPlayers trivEnv (fun _ => 0) (fun _ => false) 0 [] c8Opts 5 = (.ok [], []) ∧
    (scoutPlayers trivEnv (fun _ => 0) (fun _ => false) 0 [] c8Opts 5).1.isErr = false := by
  decide

/-- C8 amended: for every lpRange string that fails the `min-max` numeric
parse, `scoutPlayers` logs the problem and immediately returns an empty
result list: the search does not start (the outcome is independent of the
upstream environment, with no request, no save and no event at all), but no
error is surfaced to the caller. -/
theorem c8_bad_lprange (env : Env) (rng : Nat → Nat) (abort : Nat → Bool) (now : Int)
    (cache : Cache) (opts : ScoutOptions) (fuel : Nat) (str : String)
    (hs : opts.lpRange = some str) (hp : parseLpRange str = none) :
    scoutPlayers env rng abort now cache opts fuel = (.ok [], []) := by
  have hplan : scoutPlan opts = none := by
    unfold scoutPlan
    rw [hs]
    simp [hp]
  unfold scoutPlayers
  rw [hplan]

theorem c8_witness :
    c8Opts.lpRange = some "abc" ∧ parseLpRange "abc" = none ∧
    scoutPlayers trivEnv (fun _ => 1) (fun _ => true) 99 [] c8Opts 7 = (.ok [], []) :=
  ⟨rfl, by decide,
    c8_bad_lprange trivEnv (fun _ => 1) (fun _ => true) 99 [] c8Opts 7 "abc" rfl (by decide)⟩

/-! ## Claim C2: abort behavior -/

/-- The environment of the C2 counterexample: every page fetch answers
429. -/
def c2Env : Env :=
  { pageHttp := fun _ _ _ _ _ => ⟨false, 429, []⟩,
    lastActive := fun _ => none, riotId := fun _ => none,
    summoner := fun _ => none, standings := fun _ => none }

def c2Opts : ScoutOptions := { queue := some "RANKED_SOLO_5x5", maxPlayers := 1 }

/-- The abort flag of the C2 counterexample: still false at the main loop's
first poll, set from the next poll on — i.e. the user aborts while the 429
cool-down wait of the first page fetch is in progress. -/
def c2Abort : Nat → Bool := fun k => decide (1 ≤ k)

/-- C2 counterexample: when the abort predicate becomes true while
`apiRequest` is waiting out a 429 cool-down of the page-listing fetch,
`scoutPlayers` rejects with the `Search aborted` error: the abort IS
surfaced as an error to the caller, the accumulated results are NOT
returned, and the cache is NOT persisted (no save event in the trace). -/
theorem c2_counterexample :
    (scoutPlayers c2Env (fun _ => 0) c2Abort 0 [] c2Opts 5).1 = .err "Search aborted" ∧
    (scoutPlayers c2Env (fun _ => 0) c2Abort 0 [] c2Opts 5).1.isErr = true ∧
    ((scoutPlayers c2Env (fun _ => 0) c2Abort 0 [] c2Opts 5).2.contains SEvent.cacheSave)
      = false := by
  decide


/-! ## Claim C4: result uniqueness and quota invariant -/

/-- Well-formedness of the cache map: every stored record's `puuid` field
equals its key (which `cachePlayer` maintains by construction). -/
def CacheWF (c : Cache) : Prop := ∀ kv ∈ c, kv.2.p.puuid = kv.1

/-- The engine invariant: result puuids are distinct, every result's puuid
has been recorded in `seenPuuids`, the quota is respected, and the cache is
well-formed. -/
def Inv (maxP : Nat) (s : SState) : Prop :=
  (s.results.map Player.puuid).Nodup ∧
  (∀ p ∈ s.results, p.puuid ∈ s.seen) ∧
  s.results.length ≤ maxP ∧
  CacheWF s.cache

theorem CacheWF_upsert {c : Cache} {k : String} {v : CachedRecord}
    (h : CacheWF c) (hv : v.p.puuid = k) : CacheWF (cacheUpsert c k v) := by
  unfold cacheUpsert
  split
  · intro kv hkv
    rcases List.mem_map.mp hkv with ⟨kv0, h0, rfl⟩
    by_cases hk : kv0.1 = k
    · simp [hk, hv]
    · simpa [hk] using h kv0 h0
  · intro kv hkv
    rcases List.mem_append.mp hkv with h1 | h1
    · exact h kv h1
    · rw [List.mem_singleton.mp h1]
      exact hv

theorem getCachedPlayer_puuid {c : Cache} {now : Int} {k : String} {rec : CachedRecord}
    (hwf : CacheWF c) (h : getCachedPlayer c now k = some rec) : rec.p.puuid = k := by
  unfold getCachedPlayer at h
  cases hf : c.find? (fun kv => kv.1 = k) with
  | none => rw [hf] at h; simp at h
  | some kv =>
    simp only [hf] at h
    by_cases hage : now - kv.2.cachedAt > CACHE_MAX_AGE
    · rw [if_pos hage] at h; cases h
    · rw [if_neg hage] at h
      injection h with h2
      subst h2
      have hkey : kv.1 = k := by simpa using List.find?_some hf
      rw [hwf kv (List.mem_of_find?_eq_some hf), hkey]

theorem cacheLookup_some {ctx : Ctx} {c : Cache} {pu : String} {rec : CachedRecord}
    (h : cacheLookup ctx c pu = some rec) :
    getCachedPlayer c ctx.now pu = some rec ∧
      cachedPlayerMeetsCriteria ctx.now rec ctx.cacheOpts = true := by
  unfold cacheLookup at h
  cases hg : getCachedPlayer c ctx.now pu with
  | none => rw [hg] at h; simp at h
  | some r =>
    simp only [hg] at h
    by_cases hc : cachedPlayerMeetsCriteria ctx.now r ctx.cacheOpts = true
    · rw [if_pos hc] at h
      injection h with h2
      subst h2
      exact ⟨rfl, hc⟩
    · rw [if_neg hc] at h
      cases h

theorem acceptPlayer_results (ctx : Ctx) (s : SState) (pu : String) (pl : Player) (uc : Bool) :
    (acceptPlayer ctx s pu pl uc).results = s.results ++ [pl] := by
  cases uc <;> simp [acceptPlayer]

theorem acceptPlayer_seen (ctx : Ctx) (s : SState) (pu : String) (pl : Player) (uc : Bool) :
    (acceptPlayer ctx s pu pl uc).seen = pu :: s.seen := by
  cases uc <;> simp [acceptPlayer]

theorem acceptPlayer_cache (ctx : Ctx) (s : SState) (pu : String) (pl : Player) (uc : Bool) :
    (acceptPlayer ctx s pu pl uc).cache =
      if uc then (cachePlayer s.cache pl ctx.now).1 else s.cache := by
  cases uc <;> simp [acceptPlayer]

theorem Inv_accept {ctx : Ctx} {s : SState} {pu : String} {pl : Player} {uc : Bool}
    (hInv : Inv ctx.maxPlayers s) (hpu : pu ∉ s.seen) (hpl : pl.puuid = pu)
    (hlen : s.results.length < ctx.maxPlayers) :
    Inv ctx.maxPlayers (acceptPlayer ctx s pu pl uc) := by
  obtain ⟨hnd, hsub, -, hwf⟩ := hInv
  have hnotin : pl.puuid ∉ s.results.map Player.puuid := by
    rw [hpl]
    intro hmem
    rcases List.mem_map.mp hmem with ⟨q, hq, he⟩
    exact hpu (he ▸ hsub q hq)
  refine ⟨?_, ?_, ?_, ?_⟩
  · rw [acceptPlayer_results, List.map_append]
    refine List.nodup_append.mpr ⟨hnd, List.nodup_singleton _, ?_⟩
    intro a ha hb
    simp only [List.map_cons, List.map_nil, List.mem_singleton] at hb
    rw [hb] at ha
    exact hnotin ha
  · intro q hq
    rw [acceptPlayer_results] at hq
    rw [acceptPlayer_seen]
    rcases List.mem_append.mp hq with h1 | h1
    · exact List.mem_cons_of_mem _ (hsub q h1)
    · rw [List.mem_singleton.mp h1, hpl]
      exact List.mem_cons_self _ _
  · rw [acceptPlayer_results, List.length_append]
    simpa using hlen
  · rw [acceptPlayer_cache]
    cases uc with
    | true => exact CacheWF_upsert hwf rfl
    | false => exact hwf

theorem processStandings_inv (ctx : Ctx) (pp : String) (base : Int) :
    ∀ (les : List RankedEntry) (s : SState), Inv ctx.maxPlayers s → pp ∉ s.seen →
      Inv ctx.maxPlayers (processStandings ctx pp base les s) := by
  intro les
  induction les with
  | nil => intro s h _; exact h
  | cons le rest ih =>
    intro s hInv hpp
    simp only [processStandings]
    split
    · exact hInv
    · split
      · exact ih s hInv hpp
      · split
        · exact ih s hInv hpp
        · split
          · exact ih s hInv hpp
          · exact Inv_accept hInv hpp rfl (by omega)

theorem processParticipants_inv (ctx : Ctx) (fp : String) (base : Int) :
    ∀ (parts : List (Option String)) (s : SState), Inv ctx.maxPlayers s →
      Inv ctx.maxPlayers (processParticipants ctx fp base parts s) := by
  intro parts
  induction parts with
  | nil => intro s h; exact h
  | cons part rest ih =>
    intro s hInv
    simp only [processParticipants]
    split
    · exact hInv
    · rename_i hq
      have hInv' : Inv ctx.maxPlayers (pollAbort ctx s).2 := hInv
      have hlen : (pollAbort ctx s).2.results.length < ctx.maxPlayers := by
        have e : (pollAbort ctx s).2.results = s.results := rfl
        rw [e]; omega
      split
      · exact hInv'
      · split
        · exact ih _ hInv'
        · rename_i pp
          split
          · exact ih _ hInv'
          · rename_i hseen
            have hpp : pp ∉ (pollAbort ctx s).2.seen := fun hm => hseen (Or.inr hm)
            split
            · rename_i rec hrec
              have hg := (cacheLookup_some hrec).1
              exact ih _ (Inv_accept hInv' hpp (getCachedPlayer_puuid hInv'.2.2.2 hg) hlen)
            · split
              · exact ih _ hInv'
              · split
                · exact ih _ hInv'
                · exact ih _ hInv'
                · exact ih _ (processStandings_inv ctx pp base _ _ hInv' hpp)

theorem processEntries_inv (ctx : Ctx) (st sd : String) :
    ∀ (es : List LeagueEntry) (s : SState), Inv ctx.maxPlayers s →
      Inv ctx.maxPlayers (processEntries ctx st sd es s) := by
  intro es
  induction es with
  | nil => intro s h; exact h
  | cons e rest ih =>
    intro s hInv
    simp only [processEntries]
    split
    · exact hInv
    · rename_i hq
      have hInv' : Inv ctx.maxPlayers (pollAbort ctx s).2 := hInv
      have hlen : (pollAbort ctx s).2.results.length < ctx.maxPlayers := by
        have e : (pollAbort ctx s).2.results = s.results := rfl
        rw [e]; omega
      split
      · exact hInv'
      · split
        · exact ih _ hInv'
        · split
          · exact ih _ hInv'
          · split
            · exact ih _ hInv'
            · rename_i pu hpue
              split
              · exact ih _ hInv'
              · rename_i hseen
                split
                · rename_i rec hrec
                  have hg := (cacheLookup_some hrec).1
                  exact ih _ (Inv_accept hInv' hseen (getCachedPlayer_puuid hInv'.2.2.2 hg) hlen)
                · split
                  · exact ih _ hInv'
                  · rename_i act hact
                    split
                    · have hacc : Inv ctx.maxPlayers
                          (acceptPlayer ctx (pollAbort ctx s).2 pu
                            { name := (ctx.env.riotId pu).getD "Unknown", puuid := pu,
                              totalLP := toTotalLP st sd e.leaguePoints,
                              wins := e.wins, losses := e.losses,
                              lastActiveMinutes := act.minutesAgo, fromCache := false } true) :=
                        Inv_accept hInv' hseen rfl hlen
                      split
                      · split
                        · exact ih _ (processParticipants_inv ctx pu act.minutesAgo _ _ hacc)
                        · exact ih _ hacc
                      · exact ih _ hacc
                    · exact ih _ hInv'

theorem handleFetch_inv (ctx : Ctx) (idx : Nat) (combo : Combo) (page : Nat)
    (out : ApiOutcome (List LeagueEntry)) (s : SState) (h : Inv ctx.maxPlayers s) :
    Inv ctx.maxPlayers (stepState (handleFetch ctx idx combo page out s)) := by
  cases out with
  | ok entries =>
    by_cases he : entries.isEmpty
    · simp only [handleFetch, if_pos he]
      exact h
    · simp only [handleFetch, if_neg he]
      exact processEntries_inv ctx _ _ _ _ h
  | noFuel => exact h
  | authError => exact h
  | aborted => exact h
  | apiError st => exact h

theorem scoutStep_inv (ctx : Ctx) (fl : Nat) (s : SState) (hInv : Inv ctx.maxPlayers s) :
    Inv ctx.maxPlayers (stepState (scoutStep ctx fl s)) := by
  simp only [scoutStep]
  split
  · exact hInv
  · have hInv' : Inv ctx.maxPlayers (pollAbort ctx s).2 := hInv
    split
    · exact hInv'
    · split
      · exact hInv'
      · split
        · exact hInv'
        · exact handleFetch_inv ctx _ _ _ _ _ hInv'

theorem scoutLoop_inv (ctx : Ctx) :
    ∀ (fuel : Nat) (s : SState), Inv ctx.maxPlayers s →
      Inv ctx.maxPlayers (scoutLoop ctx fuel s).2 := by
  intro fuel
  induction fuel with
  | zero => intro s h; exact h
  | succ f ih =>
    intro s hInv
    have hstep := scoutStep_inv ctx (f + 1) s hInv
    cases he : scoutStep ctx (f + 1) s with
    | inl r =>
      rw [he] at hstep
      simpa [scoutLoop, he] using hstep
    | inr s' =>
      rw [he] at hstep
      simpa [scoutLoop, he] using ih s' hstep

/-- C4: in every run of `scoutPlayers` that resolves normally (given a
well-formed initial cache, whose stored records carry their own key as
puuid), the returned result list contains no two entries with the same
player identifier and its length never exceeds `maxPlayers`; the invariant
is maintained across all accept paths (cache hit, fresh lookup, teammate
expansion). -/
theorem c4_no_duplicates (env : Env) (rng : Nat → Nat) (abort : Nat → Bool) (now : Int)
    (initCache : Cache) (opts : ScoutOptions) (fuel : Nat) (rs : List Player)
    (evs : List SEvent) (hwf : CacheWF initCache)
    (hrun : scoutPlayers env rng abort now initCache opts fuel = (.ok rs, evs)) :
    (rs.map Player.puuid).Nodup ∧ rs.length ≤ opts.maxPlayers := by
  rcases hplan : scoutPlan opts with _ | ⟨tds, lo, hi⟩
  · unfold scoutPlayers at hrun
    rw [hplan] at hrun
    injection hrun with h1 h2
    injection h1 with h1
    subst h1
    exact ⟨List.nodup_nil, by simp⟩
  · rw [scoutPlayers_eq_some env rng abort now initCache opts fuel tds lo hi hplan] at hrun
    obtain ⟨hdone, hrs, -⟩ := (scoutFinish_ok_iff _ _ _).mp hrun
    have h0 : Inv opts.maxPlayers
        { combos := (shuffleArray rng 0 (buildCombos (scoutQueues opts) tds)).1,
          results := [], seen := [], processed := [], cache := initCache, events := [],
          polls := 0, rands := (shuffleArray rng 0 (buildCombos (scoutQueues opts) tds)).2 } :=
      ⟨List.nodup_nil, by simp, by simp, hwf⟩
    have hfin := scoutLoop_inv
      { env := env, rng := rng, abort := abort, now := now,
        maxPlayers := opts.maxPlayers,
        activeWithinMinutes := opts.activeWithinMinutes,
        minWinRate := opts.minWinRate, minLP := lo, maxLP := hi } fuel _ h0
    rw [hrs]
    exact ⟨hfin.1, hfin.2.2.1⟩

theorem c4_witness :
    CacheWF [] ∧
    (([] : List Player).map Player.puuid).Nodup ∧ ([] : List Player).length ≤ 10 :=
  ⟨fun kv h => absurd h (List.not_mem_nil kv),
    c4_no_duplicates trivEnv (fun _ => 0) (fun _ => true) 0 [] {} 1 []
      [SEvent.abortPoll, SEvent.cacheSave]
      (fun kv h => absurd h (List.not_mem_nil kv)) (by decide)⟩

/-! ## Claim C3: termination of the exploration loop

Each loop iteration either marks a combination exhausted or adds a page to
a combination's tried set (strictly shrinking its untried-page set), so the
sum over combinations of (1 + untried pages, or 0 when exhausted) strictly
decreases; entry processing never touches the combinations. -/

theorem acceptPlayer_combos (ctx : Ctx) (s : SState) (pu : String) (pl : Player) (uc : Bool) :
    (acceptPlayer ctx s pu pl uc).combos = s.combos := by
  cases uc <;> simp [acceptPlayer]

theorem processStandings_combos (ctx : Ctx) (pp : String) (base : Int) :
    ∀ (les : List RankedEntry) (s : SState),
      (processStandings ctx pp base les s).combos = s.combos := by
  intro les
  induction les with
  | nil => intro s; rfl
  | cons le rest ih =>
    intro s
    simp only [processStandings]
    split
    · rfl
    · split
      · exact ih s
      · split
        · exact ih s
        · split
          · exact ih s
          · exact acceptPlayer_combos ..

theorem processParticipants_combos (ctx : Ctx) (fp : String) (base : Int) :
    ∀ (parts : List (Option String)) (s : SState),
      (processParticipants ctx fp base parts s).combos = s.combos := by
  intro parts
  induction parts with
  | nil => intro s; rfl
  | cons part rest ih =>
    intro s
    simp only [processParticipants]
    split
    · rfl
    · split
      · rfl
      · split
        · exact ih _
        · split
          · exact ih _
          · split
            · rename_i rec hrec
              rw [ih _, acceptPlayer_combos]
              rfl
            · split
              · exact ih _
              · split
                · exact ih _
                · exact ih _
                · rename_i les hles
                  rw [ih _, processStandings_combos]
                  rfl

theorem processEntries_combos (ctx : Ctx) (st sd : String) :
    ∀ (es : List LeagueEntry) (s : SState),
      (processEntries ctx st sd es s).combos = s.combos := by
  intro es
  induction es with
  | nil => intro s; rfl
  | cons e rest ih =>
    intro s
    simp only [processEntries]
    split
    · rfl
    · split
      · rfl
      · split
        · exact ih _
        · split
          · exact ih _
          · split
            · exact ih _
            · rename_i pu hpue
              split
              · exact ih _
              · split
                · rename_i rec hrec
                  rw [ih _, acceptPlayer_combos]
                  rfl
                · split
                  · exact ih _
                  · rename_i act hact
                    split
                    · split
                      · split
                        · rw [ih _, processParticipants_combos, acceptPlayer_combos]
                          rfl
                        · rw [ih _, acceptPlayer_combos]
                          rfl
                      · rw [ih _, acceptPlayer_combos]
                        rfl
                    · exact ih _

/-- The per-combination termination measure: exhausted combinations count 0,
active ones 1 plus their untried pages. -/
def comboMeasure (c : Combo) : Nat :=
  if c.maxPageReached then 0 else 1 + (untriedPages c).length

def stateMeasure (s : SState) : Nat := (s.combos.map comboMeasure).sum

theorem sum_map_set_lt (f : Combo → Nat) :
    ∀ (l : List Combo) (i : Nat) (c : Combo), i < l.length →
      f c < f (l.getD i default) →
      ((l.set i c).map f).sum < (l.map f).sum := by
  intro l
  induction l with
  | nil => intro i c h _; simp at h
  | cons x xs ih =>
    intro i c hi hf
    cases i with
    | zero =>
      simp only [List.set_cons_zero, List.map_cons, List.sum_cons]
      simp only [List.getD_cons_zero] at hf
      omega
    | succ j =>
      simp only [List.set_cons_succ, List.map_cons, List.sum_cons]
      simp only [List.getD_cons_succ] at hf
      have := ih j c (by simpa using hi) hf
      omega

theorem filter_notMem_cons_le (p : Nat) (tried : List Nat) :
    ∀ (l : List Nat),
      (l.filter (fun q => decide (q ∉ p :: tried))).length ≤
        (l.filter (fun q => decide (q ∉ tried))).length := by
  intro l
  induction l with
  | nil => simp
  | cons x xs ih =>
    by_cases hx : x ∈ p :: tried
    · have hx2 : (decide (x ∉ p :: tried)) = false := by simp [hx]
      by_cases hx3 : x ∈ tried
      · have : (decide (x ∉ tried)) = false := by simp [hx3]
        simp only [List.filter_cons, hx2, this, Bool.false_eq_true, if_false]
        exact ih
      · have : (decide (x ∉ tried)) = true := by simp [hx3]
        simp only [List.filter_cons, hx2, this, Bool.false_eq_true, if_false, if_true,
          List.length_cons]
        omega
    · have hx2 : (decide (x ∉ p :: tried)) = true := by simp_all
      have hx3 : (decide (x ∉ tried)) = true := by
        have : x ∉ tried := fun hm => hx (List.mem_cons_of_mem _ hm)
        simp [this]
      simp only [List.filter_cons, hx2, hx3, if_true, List.length_cons]
      omega

theorem filter_notMem_cons_lt (p : Nat) (tried : List Nat) (hp : p ∉ tried) :
    ∀ (l : List Nat), p ∈ l →
      (l.filter (fun q => decide (q ∉ p :: tried))).length <
        (l.filter (fun q => decide (q ∉ tried))).length := by
  intro l
  induction l with
  | nil => intro h; cases h
  | cons x xs ih =>
    intro hmem
    by_cases hxp : x = p
    · subst hxp
      have h1 : (decide (x ∉ x :: tried)) = false := by simp
      have h2 : (decide (x ∉ tried)) = true := by simp [hp]
      simp only [List.filter_cons, h1, h2, Bool.false_eq_true, if_false, if_true,
        List.length_cons]
      have := filter_notMem_cons_le x tried xs
      omega
    · have hmem' : p ∈ xs := by
        rcases List.mem_cons.mp hmem with h | h
        · exact absurd h.symm hxp
        · exact h
      have heq : (decide (x ∉ p :: tried)) = (decide (x ∉ tried)) := by
        by_cases hx : x ∈ tried
        · simp [hx]
        · simp [hx, hxp]
      simp only [List.filter_cons, heq]
      by_cases hx : (decide (x ∉ tried)) = true
      · simp only [hx, if_true, List.length_cons]
        exact Nat.succ_lt_succ (ih hmem')
      · simp only [Bool.not_eq_true] at hx
        simp only [hx, Bool.false_eq_true, if_false]
        exact ih hmem'

theorem filter_range'_mono (f : Nat → Bool) (a b : Nat) (hab : a ≤ b) :
    ((List.range' 1 a).filter f).length ≤ ((List.range' 1 b).filter f).length := by
  have hsub : List.Sublist (List.range' 1 a) (List.range' 1 b) := by
    obtain ⟨k, rfl⟩ := Nat.exists_eq_add_of_le hab
    rw [Nat.add_comm a k, ← List.range'_append 1 a k 1]
    exact List.sublist_append_left _ _
  exact (hsub.filter f).length_le

theorem setCombo_combos (s : SState) (i : Nat) (c : Combo) :
    (setCombo s i c).combos = s.combos.set i c := rfl

theorem pollAbort_combos (ctx : Ctx) (s : SState) :
    (pollAbort ctx s).2.combos = s.combos := rfl

theorem draw_combos (ctx : Ctx) (s : SState) (n : Nat) :
    (draw ctx s n).2.combos = s.combos := rfl

theorem activeIdxsOf_poll (ctx : Ctx) (s : SState) :
    activeIdxsOf (pollAbort ctx s).2 = activeIdxsOf s := rfl

theorem listGetD_mem (l : List Nat) (i : Nat) (d : Nat) (h : i < l.length) :
    l.getD i d ∈ l := by
  rw [List.getD_eq_getElem l d h]
  exact List.getElem_mem h

theorem activeIdx_facts (s : SState) (i : Nat) (h : i ∈ activeIdxsOf s) :
    i < s.combos.length ∧ (s.combos.getD i default).maxPageReached = false := by
  unfold activeIdxsOf at h
  obtain ⟨hr, hp⟩ := List.mem_filter.mp h
  have hi : i < s.combos.length := List.mem_range.mp hr
  refine ⟨hi, ?_⟩
  rw [List.getElem?_eq_getElem hi] at hp
  rw [List.getD_eq_getElem _ _ hi]
  simpa using hp

theorem untried_page_facts (c : Combo) (page : Nat) (h : page ∈ untriedPages c) :
    page ∈ List.range' 1 c.currentMaxPage ∧ page ∉ c.triedPages := by
  obtain ⟨h1, h2⟩ := List.mem_filter.mp h
  exact ⟨h1, by simpa using h2⟩

theorem comboMeasure_pageAdded (c : Combo) (page : Nat) (hflag : c.maxPageReached = false)
    (hpage : page ∈ untriedPages c) :
    comboMeasure { c with triedPages := page :: c.triedPages } < comboMeasure c := by
  obtain ⟨h1, h2⟩ := untried_page_facts c page hpage
  unfold comboMeasure untriedPages
  simp only [hflag, Bool.false_eq_true, if_false]
  have := filter_notMem_cons_lt page c.triedPages h2 (List.range' 1 c.currentMaxPage) h1
  omega

theorem comboMeasure_tightened (c : Combo) (newMax : Nat) (ex : Bool)
    (hflag : c.maxPageReached = false) (hle : newMax ≤ c.currentMaxPage) :
    comboMeasure { c with currentMaxPage := newMax, maxPageReached := ex } ≤ comboMeasure c := by
  unfold comboMeasure
  cases ex with
  | true => simp [hflag]
  | false =>
    simp only [hflag, Bool.false_eq_true, if_false, untriedPages]
    have := filter_range'_mono (fun q => decide (¬ q ∈ c.triedPages)) newMax c.currentMaxPage hle
    omega

theorem handleFetch_inr_combos (ctx : Ctx) (idx : Nat) (combo : Combo) (page : Nat)
    (out : ApiOutcome (List LeagueEntry)) (s s' : SState)
    (h : handleFetch ctx idx combo page out s = .inr s') :
    s'.combos = s.combos ∨
      ∃ ex, s'.combos = s.combos.set idx
        { combo with
          currentMaxPage := min combo.currentMaxPage (page - 1),
          maxPageReached := ex } := by
  cases out with
  | noFuel => simp [handleFetch] at h
  | authError => simp [handleFetch] at h
  | aborted => simp [handleFetch] at h
  | apiError st => simp [handleFetch] at h
  | ok entries =>
    simp only [handleFetch] at h
    split at h
    · injection h with h2
      subst h2
      exact Or.inr ⟨_, rfl⟩
    · injection h with h2
      subst h2
      rw [processEntries_combos]
      exact Or.inl rfl

theorem scoutStep_measure (ctx : Ctx) (fl : Nat) (s s' : SState)
    (h : scoutStep ctx fl s = .inr s') : stateMeasure s' < stateMeasure s := by
  simp only [scoutStep] at h
  split at h
  · cases h
  · split at h
    · cases h
    · split at h
      · cases h
      · rename_i hne
        have hne' : (activeIdxsOf s).length ≠ 0 := by
          rw [← activeIdxsOf_poll ctx s]; exact hne
        have hlen : 0 < (activeIdxsOf s).length := Nat.pos_of_ne_zero hne'
        simp only [activeIdxsOf_poll, draw_combos, pollAbort_combos] at h
        have hd1lt : (draw ctx (pollAbort ctx s).2 (activeIdxsOf s).length).1 <
            (activeIdxsOf s).length := Nat.mod_lt _ hlen
        set d1 := (draw ctx (pollAbort ctx s).2 (activeIdxsOf s).length).1 with hd1def
        set idx := (activeIdxsOf s).getD d1 0 with hidxdef
        have hmem : idx ∈ activeIdxsOf s := listGetD_mem _ _ _ hd1lt
        obtain ⟨hlt, hflag⟩ := activeIdx_facts s idx hmem
        set combo := s.combos.getD idx default with hcombodef
        split at h
        · injection h with h2
          subst h2
          unfold stateMeasure
          simp only [setCombo_combos, draw_combos, pollAbort_combos]
          refine sum_map_set_lt comboMeasure s.combos idx _ hlt ?_
          rw [← hcombodef]
          unfold comboMeasure
          simp only [hflag, Bool.false_eq_true, if_false, if_true]
          omega
        · rename_i hunt
          have hulen : 0 < (untriedPages combo).length := Nat.pos_of_ne_zero hunt
          have hd2lt : (draw ctx (draw ctx (pollAbort ctx s).2 (activeIdxsOf s).length).2
              (untriedPages combo).length).1 < (untriedPages combo).length :=
            Nat.mod_lt _ hulen
          set page := (untriedPages combo).getD
            (draw ctx (draw ctx (pollAbort ctx s).2 (activeIdxsOf s).length).2
              (untriedPages combo).length).1 1 with hpagedef
          have hpagemem : page ∈ untriedPages combo := listGetD_mem _ _ _ hd2lt
          have hdec : comboMeasure { combo with triedPages := page :: combo.triedPages } <
              comboMeasure combo := comboMeasure_pageAdded combo page hflag hpagemem
          rcases handleFetch_inr_combos _ _ _ _ _ _ _ h with hc | ⟨ex, hc⟩
          · unfold stateMeasure
            rw [hc]
            simp only [setCombo_combos, draw_combos, pollAbort_combos]
            refine sum_map_set_lt comboMeasure s.combos idx _ hlt ?_
            rw [← hcombodef]
            exact hdec
          · unfold stateMeasure
            rw [hc]
            simp only [setCombo_combos, draw_combos, pollAbort_combos, List.set_set]
            refine sum_map_set_lt comboMeasure s.combos idx _ hlt ?_
            rw [← hcombodef]
            have h1 : comboMeasure
                { { combo with triedPages := page :: combo.triedPages } with
                  currentMaxPage :=
                    min ({ combo with triedPages := page :: combo.triedPages}).currentMaxPage
                      (page - 1),
                  maxPageReached := ex } ≤
                comboMeasure { combo with triedPages := page :: combo.triedPages } :=
              comboMeasure_tightened _ _ ex hflag (Nat.min_le_left _ _)
            exact lt_of_le_of_lt h1 hdec

theorem apiRequest_first_ok {α : Type} (upstream : Nat → HttpResp α) (ab : Nat → Bool)
    (fl k : Nat) (h : (upstream 0).ok = true) (hfl : 1 ≤ fl) :
    apiRequest upstream ab fl 0 k = (.ok (upstream 0).payload, k, [SEvent.httpCall]) := by
  obtain ⟨g, rfl⟩ : ∃ g, fl = g + 1 := ⟨fl - 1, by omega⟩
  simp [apiRequest, h]

theorem scoutStep_inl (ctx : Ctx) (fl : Nat) (s : SState) (r : LoopExit × SState)
    (hfl : 1 ≤ fl)
    (hok : ∀ q t d p, (ctx.env.pageHttp q t d p 0).ok = true)
    (h : scoutStep ctx fl s = .inl r) : r.1 = .done := by
  have hreq : ∀ q t d p k, apiRequest (ctx.env.pageHttp q t d p) ctx.abort fl 0 k =
      (.ok (ctx.env.pageHttp q t d p 0).payload, k, [SEvent.httpCall]) :=
    fun q t d p k => apiRequest_first_ok _ _ _ _ (hok q t d p) hfl
  simp only [scoutStep] at h
  split at h
  · injection h with h1
    rw [← h1]
  · split at h
    · injection h with h1
      rw [← h1]
    · split at h
      · injection h with h1
        rw [← h1]
      · split at h
        · cases h
        · simp only [hreq] at h
          simp only [handleFetch] at h
          split at h
          · cases h
          · cases h

theorem scoutLoop_done (ctx : Ctx)
    (hok : ∀ q t d p, (ctx.env.pageHttp q t d p 0).ok = true) :
    ∀ (fuel : Nat) (s : SState), stateMeasure s < fuel → (scoutLoop ctx fuel s).1 = .done := by
  intro fuel
  induction fuel with
  | zero => intro s h; exact absurd h (Nat.not_lt_zero _)
  | succ f ih =>
    intro s hm
    cases he : scoutStep ctx (f + 1) s with
    | inl r =>
      have hdone := scoutStep_inl ctx (f + 1) s r (by omega) hok he
      simp only [scoutLoop, he]
      exact hdone
    | inr s' =>
      have hdec := scoutStep_measure ctx (f + 1) s s' he
      simp only [scoutLoop, he]
      exact ih s' (by omega)

theorem listSwap_length (l : List α) (i j : Nat) : (listSwap l i j).length = l.length := by
  rcases h1 : l[i]? with _ | x <;> rcases h2 : l[j]? with _ | y <;>
    simp [listSwap, h1, h2]

theorem listSwap_subset (l : List α) (i j : Nat) : ∀ a ∈ listSwap l i j, a ∈ l := by
  intro a ha
  rcases h1 : l[i]? with _ | x
  · simp only [listSwap, h1] at ha
    exact ha
  · rcases h2 : l[j]? with _ | y
    · simp only [listSwap, h1, h2] at ha
      exact ha
    · simp only [listSwap, h1, h2] at ha
      rcases List.mem_or_eq_of_mem_set ha with h | h
      · rcases List.mem_or_eq_of_mem_set h with h' | h'
        · exact h'
        · subst h'
          rcases List.getElem?_eq_some.mp h2 with ⟨hlt, he⟩
          exact he ▸ List.getElem_mem hlt
      · subst h
        rcases List.getElem?_eq_some.mp h1 with ⟨hlt, he⟩
        exact he ▸ List.getElem_mem hlt

theorem shuffleGo_length (rng : Nat → Nat) :
    ∀ (i k : Nat) (l : List α), (shuffleGo rng i k l).1.length = l.length := by
  intro i
  induction i with
  | zero => intro k l; rfl
  | succ j ih =>
    intro k l
    simp only [shuffleGo]
    rw [ih]
    exact listSwap_length ..

theorem shuffleGo_subset (rng : Nat → Nat) :
    ∀ (i k : Nat) (l : List α), ∀ a ∈ (shuffleGo rng i k l).1, a ∈ l := by
  intro i
  induction i with
  | zero => intro k l a ha; exact ha
  | succ j ih =>
    intro k l a ha
    simp only [shuffleGo] at ha
    exact listSwap_subset _ _ _ a (ih _ _ a ha)

theorem buildCombos_length (qs : List String) (tds : List (String × String)) :
    (buildCombos qs tds).length = qs.length * tds.length := by
  induction qs with
  | nil => simp [buildCombos]
  | cons q rest ih =>
    simp only [buildCombos, List.flatMap_cons, List.length_append, List.length_map,
      List.length_cons]
    simp only [buildCombos] at ih
    rw [ih]
    ring

theorem comboMeasure_fresh (q t d : String) :
    comboMeasure
      { queue := q, tier := t, division := d, triedPages := [],
        maxPageReached := false, currentMaxPage := 50 } = 51 := by
  have h : (untriedPages
      { queue := q, tier := t, division := d, triedPages := [],
        maxPageReached := false, currentMaxPage := 50 }).length = 50 := by
    unfold untriedPages
    rw [List.filter_eq_self.mpr (by intro a _; simp)]
    simp
  unfold comboMeasure
  simp [h]

theorem buildCombos_measure (qs : List String) (tds : List (String × String)) :
    ∀ c ∈ buildCombos qs tds, comboMeasure c = 51 := by
  intro c hc
  rcases List.mem_flatMap.mp hc with ⟨q, hq, hmem⟩
  rcases List.mem_map.mp hmem with ⟨td, htd, rfl⟩
  exact comboMeasure_fresh q td.1 td.2

theorem measure_shuffled (rng : Nat → Nat) (qs : List String) (tds : List (String × String)) :
    (((shuffleArray rng 0 (buildCombos qs tds)).1.map comboMeasure)).sum =
      51 * (qs.length * tds.length) := by
  have hall : ∀ b ∈ (shuffleArray rng 0 (buildCombos qs tds)).1.map comboMeasure, b = 51 := by
    intro b hb
    rcases List.mem_map.mp hb with ⟨c, hc, rfl⟩
    exact buildCombos_measure qs tds c (shuffleGo_subset rng _ _ _ c hc)
  rw [List.eq_replicate_of_mem hall, List.sum_replicate, List.length_map]
  have hlen : (shuffleArray rng 0 (buildCombos qs tds)).1.length =
      (buildCombos qs tds).length := shuffleGo_length ..
  rw [hlen, buildCombos_length, smul_eq_mul, Nat.mul_comm]

theorem getTierDivisionsInRange_le (lo hi : Int) :
    (getTierDivisionsInRange lo hi).length ≤ 28 := by
  refine le_trans (List.length_filterMap_le _ _) ?_
  decide

theorem scoutQueues_length_le (opts : ScoutOptions) : (scoutQueues opts).length ≤ 2 := by
  unfold scoutQueues
  rcases opts.queue <;> simp

theorem scoutPlan_tds_le (opts : ScoutOptions) (tds : List (String × String))
    (lo hi : Option Int) (h : scoutPlan opts = some (tds, lo, hi)) : tds.length ≤ 28 := by
  unfold scoutPlan at h
  rcases hl : opts.lpRange with _ | str
  · simp only [hl, Option.some.injEq, Prod.mk.injEq] at h
    obtain ⟨h3, -⟩ := h
    rw [← h3]
    simp
  · rcases hp : parseLpRange str with _ | ⟨a, b⟩
    · simp [hl, hp] at h
    · simp only [hl, hp, Option.some.injEq, Prod.mk.injEq] at h
      obtain ⟨h3, -⟩ := h
      rw [← h3]
      exact getTierDivisionsInRange_le a b

/-- C3: when every page fetch answers immediately (the upstream is a pure
response function) and, in particular, every page of every combination
beyond page 1 is empty, the main loop of `scoutPlayers` terminates — with
fuel at least 51 x (2 queues x 28 tier/divisions) + 1 = 2857 the interpreter
never exhausts its fuel (each iteration either consumes a page from a
combination's finite untried-page set or marks a combination exhausted) —
and the engine resolves normally with the partial result set. -/
theorem c3_terminates (env : Env) (rng : Nat → Nat) (abort : Nat → Bool) (now : Int)
    (cache : Cache) (opts : ScoutOptions) (fuel : Nat)
    (hok : ∀ q t d p, (env.pageHttp q t d p 0).ok = true)
    (hempty : ∀ q t d p, 2 ≤ p → (env.pageHttp q t d p 0).payload = [])
    (hfuel : 2857 ≤ fuel) :
    ∃ rs evs, scoutPlayers env rng abort now cache opts fuel = (.ok rs, evs) := by
  rcases hplan : scoutPlan opts with _ | ⟨tds, lo, hi⟩
  · exact ⟨[], [], by unfold scoutPlayers; rw [hplan]⟩
  · rw [scoutPlayers_eq_some env rng abort now cache opts fuel tds lo hi hplan]
    have h1 := measure_shuffled rng (scoutQueues opts) tds
    have h2 : (scoutQueues opts).length ≤ 2 := scoutQueues_length_le opts
    have h3 : tds.length ≤ 28 := scoutPlan_tds_le opts tds lo hi hplan
    have h5 : (scoutQueues opts).length * tds.length ≤ 56 :=
      le_trans (Nat.mul_le_mul h2 h3) (by norm_num)
    have hmu : stateMeasure
        { combos := (shuffleArray rng 0 (buildCombos (scoutQueues opts) tds)).1,
          results := [], seen := [], processed := [], cache := cache, events := [],
          polls := 0,
          rands := (shuffleArray rng 0 (buildCombos (scoutQueues opts) tds)).2 } < fuel := by
      have h6 : stateMeasure
          { combos := (shuffleArray rng 0 (buildCombos (scoutQueues opts) tds)).1,
            results := [], seen := [], processed := [], cache := cache, events := [],
            polls := 0,
            rands := (shuffleArray rng 0 (buildCombos (scoutQueues opts) tds)).2 } =
          51 * ((scoutQueues opts).length * tds.length) := h1
      have h7 : 51 * ((scoutQueues opts).length * tds.length) ≤ 51 * 56 :=
        Nat.mul_le_mul_left _ h5
      omega
    have hdone := scoutLoop_done
      { env := env, rng := rng, abort := abort, now := now,
        maxPlayers := opts.maxPlayers,
        activeWithinMinutes := opts.activeWithinMinutes,
        minWinRate := opts.minWinRate, minLP := lo, maxLP := hi }
      hok fuel _ hmu
    exact ⟨_, _, scoutFinish_done _ hdone⟩

theorem c3_witness :
    ∃ rs evs,
      scoutPlayers trivEnv (fun _ => 0) (fun _ => false) 0 [] {} 2857 = (.ok rs, evs) :=
  c3_terminates trivEnv (fun _ => 0) (fun _ => false) 0 [] {} 2857
    (fun _ _ _ _ => rfl) (fun _ _ _ _ _ => rfl) (by norm_num)

/-- An abort schedule that stays false for the first two polls of a run
and is set from then on: the search is already past its first accepted
player when the flag is first observed. -/
def c2AbortMid : Nat → Bool := fun k => decide (2 ≤ k)

/-- Environment whose page fetches answer immediately with two zero-game
entries: with `c2AbortMid`, the abort is observed at the ENTRY-LOOP poll
of the second entry, after the first has been accepted. -/
def c2EnvEntry : Env :=
  { pageHttp := fun _ _ _ _ _ => ⟨true, 200,
      [{ puuid := some "P1", leaguePoints := 10, wins := 0, losses := 0 },
       { puuid := some "P2", leaguePoints := 10, wins := 0, losses := 0 }]⟩,
    lastActive := fun _ => some { minutesAgo := 0, matchId := none, participants := [] },
    riotId := fun _ => none, summoner := fun _ => none, standings := fun _ => none }

/-- Environment whose single page entry triggers a teammate expansion: with
`c2AbortMid`, the abort is observed at the TEAMMATE-LOOP poll for the first
participant, after the triggering player has been accepted. -/
def c2EnvMate : Env :=
  { pageHttp := fun _ _ _ _ _ => ⟨true, 200,
      [{ puuid := some "P1", leaguePoints := 10, wins := 0, losses := 0 }]⟩,
    lastActive := fun _ =>
      some { minutesAgo := 0, matchId := some "M", participants := [some "P3"] },
    riotId := fun _ => none, summoner := fun _ => none, standings := fun _ => none }

/-- C2 amended: whenever the page fetches answer without a 429 — so the
abort flag can only ever be observed at the engine's own poll sites (the
top of the main loop, the per-entry check of the entry loop and the
per-participant check of the teammate loop) — EVERY abort schedule still
ends the search normally (with fuel ≥ 2857): the engine resolves with
`.ok` of exactly the results accumulated in the final loop state and the
trace ends with the unconditional cache save.  Two concrete runs exhibit
an abort first observed mid-search at the entry-loop poll site and at the
teammate-loop poll site respectively: each returns the one
already-accepted player and still persists the cache.  (An abort observed
while waiting out a 429 cool-down of the page-listing fetch instead throws
`Search aborted` without the final save: see the counterexample.) -/
theorem c2_abort_observed :
    (∀ (env : Env) (rng : Nat → Nat) (abort : Nat → Bool) (now : Int) (cache : Cache)
        (opts : ScoutOptions) (fuel : Nat),
      (∀ q t d p, (env.pageHttp q t d p 0).ok = true) →
      scoutPlan opts ≠ none → 2857 ≤ fuel →
      ∃ rs evs, scoutPlayers env rng abort now cache opts fuel = (.ok rs, evs) ∧
        evs.getLast? = some SEvent.cacheSave) ∧
    scoutPlayers c2EnvEntry (fun _ => 0) c2AbortMid 0 []
        { queue := some "RANKED_SOLO_5x5" } 5 =
      (.ok [⟨"Unknown", "P2", some 1410, 0, 0, 0, false⟩],
        [SEvent.abortPoll, SEvent.httpCall, SEvent.abortPoll, SEvent.playerFound "P2",
          SEvent.abortPoll, SEvent.abortPoll, SEvent.cacheSave]) ∧
    scoutPlayers c2EnvMate (fun _ => 0) c2AbortMid 0 []
        { queue := some "RANKED_SOLO_5x5" } 5 =
      (.ok [⟨"Unknown", "P1", some 1410, 0, 0, 0, false⟩],
        [SEvent.abortPoll, SEvent.httpCall, SEvent.abortPoll, SEvent.playerFound "P1",
          SEvent.abortPoll, SEvent.abortPoll, SEvent.cacheSave]) := by
  refine ⟨?_, by decide, by decide⟩
  intro env rng abort now cache opts fuel hok hplan hfuel
  rcases hplan' : scoutPlan opts with _ | ⟨tds, lo, hi⟩
  · exact absurd hplan' hplan
  · rw [scoutPlayers_eq_some env rng abort now cache opts fuel tds lo hi hplan']
    have h1 := measure_shuffled rng (scoutQueues opts) tds
    have h2 : (scoutQueues opts).length ≤ 2 := scoutQueues_length_le opts
    have h3 : tds.length ≤ 28 := scoutPlan_tds_le opts tds lo hi hplan'
    have h5 : (scoutQueues opts).length * tds.length ≤ 56 :=
      le_trans (Nat.mul_le_mul h2 h3) (by norm_num)
    have hmu : stateMeasure
        { combos := (shuffleArray rng 0 (buildCombos (scoutQueues opts) tds)).1,
          results := [], seen := [], processed := [], cache := cache, events := [],
          polls := 0,
          rands := (shuffleArray rng 0 (buildCombos (scoutQueues opts) tds)).2 } < fuel := by
      have h6 : stateMeasure
          { combos := (shuffleArray rng 0 (buildCombos (scoutQueues opts) tds)).1,
            results := [], seen := [], processed := [], cache := cache, events := [],
            polls := 0,
            rands := (shuffleArray rng 0 (buildCombos (scoutQueues opts) tds)).2 } =
          51 * ((scoutQueues opts).length * tds.length) := h1
      have h7 : 51 * ((scoutQueues opts).length * tds.length) ≤ 51 * 56 :=
        Nat.mul_le_mul_left _ h5
      omega
    have hdone := scoutLoop_done
      { env := env, rng := rng, abort := abort, now := now,
        maxPlayers := opts.maxPlayers,
        activeWithinMinutes := opts.activeWithinMinutes,
        minWinRate := opts.minWinRate, minLP := lo, maxLP := hi }
      hok fuel _ hmu
    exact ⟨_, _, scoutFinish_done _ hdone, by rw [List.getLast?_concat]⟩

theorem c2_amended_witness :
    (∀ q t d p, (trivEnv.pageHttp q t d p 0).ok = true) ∧
    scoutPlan ({ queue := some "RANKED_SOLO_5x5" } : ScoutOptions) ≠ none ∧
    (2857 : Nat) ≤ 2857 ∧
    ∃ rs evs, scoutPlayers trivEnv (fun _ => 0) c2AbortMid 7 []
        { queue := some "RANKED_SOLO_5x5" } 2857 = (.ok rs, evs) ∧
      evs.getLast? = some SEvent.cacheSave :=
  ⟨fun _ _ _ _ => rfl, by decide, by norm_num,
    c2_abort_observed.1 trivEnv (fun _ => 0) c2AbortMid 7 []
      { queue := some "RANKED_SOLO_5x5" } 2857
      (fun _ _ _ _ => rfl) (by decide) (by norm_num)⟩

end LolFinder
